import Mathlib

/-!
Verification of the parallel dense linear-algebra kernels of the
matrix computation engine against its design document.

Shallow embedding conventions:
- C doubles are modelled as exact rationals (the claims under scrutiny are
  stated for exact arithmetic; floating-point rounding is out of scope).
- Buffers are Lean lists; a possibly-NULL C pointer is an Option.
- Worker threads write into pairwise disjoint slices of the output, so a
  kernel call is modelled by running the workers sequentially in ascending
  worker index; for the dot product the per-worker private accumulators are
  computed independently and combined after the join, exactly as the caller
  does in ascending worker index.
- The process-wide cancellation flag is passed as an explicit boolean that
  never changes during a call; the main theorems are about uninterrupted
  runs, where it is false.
- Success of the calloc calls for the per-call scratch storage (thread
  handles and job descriptors) is a boolean parameter of each kernel entry
  point; spawning of already-allocated workers is modelled as always
  succeeding (claims about mid-spawn thread-creation failure are not in
  scope here).
- Each kernel entry point returns the C status code together with the final
  contents of its output (the output is returned unchanged on the error
  paths that do not touch it).
-/

/-- Buffer read, with default 0 out of range (all verified accesses stay in
range; in C an out-of-range access would be undefined behaviour). -/
def getD (l : List ℚ) (i : Nat) : ℚ := l.getD i 0

/-- Dense matrix: row count, column count, row-major buffer (`none` is a
NULL data pointer). -/
structure Mat where
  rows : Nat
  cols : Nat
  data : Option (List ℚ)
deriving DecidableEq

/-- Dense vector: length and buffer (`none` is a NULL data pointer). -/
structure Vec where
  len : Nat
  data : Option (List ℚ)
deriving DecidableEq

/-- Kernel configuration: thread count and tile edge, both C ints. -/
structure KCfg where
  nt : Int
  tile : Int
deriving DecidableEq

/-- The coercion `nt <= 0 ? 1 : nt` applied by every kernel entry point. -/
def coerceNt (nt : Int) : Nat := (if nt ≤ 0 then 1 else nt).toNat

/-- A loop over a list of indices that, like the C `for` loops with
`if (g_stop) break;` as their first statement, stops at the start of an
iteration when the cancellation flag `g` is set. -/
def loopStop {α : Type} (g : Bool) (f : α → Nat → α) : List Nat → α → α
  | [], a => a
  | i :: is, a => if g then a else loopStop g f is (f a i)

/-- `row_range`: the partitioner.  Returns the half-open row range
`[start, end)` of worker `tid` out of `nt`, from `src/unnamed/part_001`
lines 9-16 (`(tid < rem) ? tid : rem` is `min tid rem`). -/
def row_range (nrows tid nt : Nat) : Nat × Nat :=
  let base := nrows / nt
  let rem := nrows % nt
  let start := tid * base + min tid rem
  let extra := if tid < rem then 1 else 0
  (start, start + base + extra)

/-- The list of row indices a worker traverses: `for (i = i0; i < i1; i++)`. -/
def rowsOf (nrows tid nt : Nat) : List Nat :=
  List.range' (row_range nrows tid nt).1 ((row_range nrows tid nt).2 - (row_range nrows tid nt).1)

/-- `m_alloc` from `src/matrix.c`: keeps the requested dimensions and a NULL
buffer when a dimension is 0; `calloc` zero-fills on success; on allocation
failure the dimensions are reset to 0 with a NULL buffer. -/
def m_alloc (r c : Nat) (allocOk : Bool) : Mat :=
  if r = 0 ∨ c = 0 then ⟨r, c, none⟩
  else if allocOk then ⟨r, c, some (List.replicate (r * c) 0)⟩
  else ⟨0, 0, none⟩

/-- `v_alloc` from `src/matrix.c`. -/
def v_alloc (n : Nat) (allocOk : Bool) : Vec :=
  if n = 0 then ⟨n, none⟩
  else if allocOk then ⟨n, some (List.replicate n 0)⟩
  else ⟨0, none⟩

/-- Inner summation of `mv_worker`: `sum += row[k] * x[k]` over `k < n`
with `row = &A.data[i*n]`. -/
def rowSum (Ad xd : List ℚ) (n i : Nat) : ℚ :=
  (List.range n).foldl (fun s k => s + getD Ad (i * n + k) * getD xd k) 0

/-- `mv_worker`: writes `y[i] = rowSum i` for each row of its partition. -/
def mv_worker (g : Bool) (Arows Acols : Nat) (Ad xd : List ℚ) (tid nt : Nat)
    (yd : List ℚ) : List ℚ :=
  loopStop g (fun y i => y.set i (rowSum Ad xd Acols i)) (rowsOf Arows tid nt) yd

/-- `mv_mt`: NULL checks, dimension checks, scratch allocation, then the
worker fan-out/join (sequentialized over ascending worker index). -/
def mv_mt (A : Mat) (x y : Vec) (cfg : KCfg) (allocOk g : Bool) : Int × Vec :=
  match A.data, x.data, y.data with
  | some Ad, some xd, some yd =>
    if A.cols ≠ x.len ∨ A.rows ≠ y.len then (-1, y)
    else
      let nt := coerceNt cfg.nt
      if allocOk then
        (0, ⟨y.len, some ((List.range nt).foldl
              (fun yd t => mv_worker g A.rows A.cols Ad xd t nt yd) yd)⟩)
      else (-1, y)
  | _, _, _ => (-1, y)

/-- One `crow[col] += a * brow[col]` accumulation of the multiply loops:
add `v` to buffer entry `idx`. -/
def bump (C : List ℚ) (idx : Nat) (v : ℚ) : List ℚ :=
  C.set idx (getD C idx + v)

/-- Untiled inner loop of `mm_worker` for one row `i`
(`for k < K: for jj < N: crow[jj] += A[i*K+k] * brow[jj]`). -/
def mmRowUntiled (Ad Bd : List ℚ) (K N i : Nat) (Cd : List ℚ) : List ℚ :=
  (List.range K).foldl (fun C k =>
    (List.range N).foldl (fun C jj =>
      bump C (i * N + jj) (getD Ad (i * K + k) * getD Bd (k * N + jj))) C) Cd

/-- The start offsets visited by a blocked loop `for (s = s0; s < n; s += T)`. -/
def blockList (s n T : Nat) : List Nat :=
  if h : 0 < T ∧ s < n then s :: blockList (s + T) n T else []
termination_by n - s
decreasing_by omega

/-- Tiled inner loop of `mm_worker` for one row `i`: column blocks
`[jj, min (jj+T) N)` and reduction blocks `[kk, min (kk+T) K)`. -/
def mmRowTiled (Ad Bd : List ℚ) (K N T i : Nat) (Cd : List ℚ) : List ℚ :=
  (blockList 0 N T).foldl (fun C jj =>
    (blockList 0 K T).foldl (fun C kk =>
      (List.range' kk (min (kk + T) K - kk)).foldl (fun C k =>
        (List.range' jj (min (jj + T) N - jj)).foldl (fun C col =>
          bump C (i * N + col) (getD Ad (i * K + k) * getD Bd (k * N + col))) C) C) C) Cd

/-- `mm_worker`: row partition, then the untiled loop when `tile <= 0`
or the tiled loop with edge `T = tile` otherwise. -/
def mm_worker (g : Bool) (Arows K N : Nat) (Ad Bd : List ℚ) (tile : Int)
    (tid nt : Nat) (Cd : List ℚ) : List ℚ :=
  if tile ≤ 0 then
    loopStop g (fun C i => mmRowUntiled Ad Bd K N i C) (rowsOf Arows tid nt) Cd
  else
    loopStop g (fun C i => mmRowTiled Ad Bd K N tile.toNat i C) (rowsOf Arows tid nt) Cd

/-- The `memset(C->data, 0, sizeof(double) * C->rows * C->cols)` of `mm_mt`:
zero-fills the first `rows * cols` buffer entries. -/
def zeroFill (rows cols : Nat) (Cd : List ℚ) : List ℚ :=
  List.replicate (rows * cols) 0 ++ Cd.drop (rows * cols)

/-- `mm_mt`: NULL checks, the two dimension checks, the zero-fill of `C`,
then scratch allocation and the worker fan-out/join.  Note the zero-fill
happens before the scratch `calloc`, exactly as in the source. -/
def mm_mt (A B C : Mat) (cfg : KCfg) (allocOk g : Bool) : Int × Mat :=
  match A.data, B.data, C.data with
  | some Ad, some Bd, some Cd =>
    if A.cols ≠ B.rows then (-1, C)
    else if C.rows ≠ A.rows ∨ C.cols ≠ B.cols then (-1, C)
    else
      let Cd0 := zeroFill C.rows C.cols Cd
      let nt := coerceNt cfg.nt
      if allocOk then
        (0, ⟨C.rows, C.cols, some ((List.range nt).foldl
              (fun Cd t => mm_worker g A.rows A.cols B.cols Ad Bd cfg.tile t nt Cd) Cd0)⟩)
      else (-1, ⟨C.rows, C.cols, some Cd0⟩)
  | _, _, _ => (-1, C)

/-- `dt_worker`: the private accumulator `s += x[i] * y[i]` of one worker
over its partition of `[0, x.len)`. -/
def dt_worker (g : Bool) (xd yd : List ℚ) (n tid nt : Nat) : ℚ :=
  loopStop g (fun s i => s + getD xd i * getD yd i) (rowsOf n tid nt) 0

/-- `dt_mt`: NULL checks, length check, scratch allocation, then after the
join the caller folds `sum += jobs[t].partial` in ascending worker index;
the scalar `out` holds the prior contents of `*out` and is returned
unchanged on the error paths. -/
def dt_mt (x y : Vec) (out : ℚ) (nt : Int) (allocOk g : Bool) : Int × ℚ :=
  match x.data, y.data with
  | some xd, some yd =>
    if x.len ≠ y.len then (-1, out)
    else
      let n := coerceNt nt
      if allocOk then
        (0, (List.range n).foldl (fun s t => s + dt_worker g xd yd x.len t n) 0)
      else (-1, out)
  | _, _ => (-1, out)

/-- `ax_worker`: `y[i] = a * x[i] + y[i]` over the worker's partition of
`[0, x.len)`. -/
def ax_worker (g : Bool) (a : ℚ) (xd : List ℚ) (n tid nt : Nat)
    (yd : List ℚ) : List ℚ :=
  loopStop g (fun y i => y.set i (a * getD xd i + getD y i)) (rowsOf n tid nt) yd

/-- `ax_mt`: NULL checks, length check, scratch allocation, worker
fan-out/join. -/
def ax_mt (a : ℚ) (x y : Vec) (nt : Int) (allocOk g : Bool) : Int × Vec :=
  match x.data, y.data with
  | some xd, some yd =>
    if x.len ≠ y.len then (-1, y)
    else
      let n := coerceNt nt
      if allocOk then
        (0, ⟨y.len, some ((List.range n).foldl
              (fun yd t => ax_worker g a xd x.len t n yd) yd)⟩)
      else (-1, y)
  | _, _ => (-1, y)

/-- The straightforward sequential dot product `Σ x[i] * y[i]`. -/
def seqDot (xd yd : List ℚ) (n : Nat) : ℚ :=
  ((List.range n).map (fun i => getD xd i * getD yd i)).sum

/-- One multiply accumulation as a (target index, addend) pair of row `i`. -/
def mmPair (Ad Bd : List ℚ) (K N i k col : Nat) : Nat × ℚ :=
  (i * N + col, getD Ad (i * K + k) * getD Bd (k * N + col))

/-- The accumulations of the untiled loop for row `i`, in visit order. -/
def untiledOps (Ad Bd : List ℚ) (K N i : Nat) : List (Nat × ℚ) :=
  (List.range K).flatMap (fun k => (List.range N).map (mmPair Ad Bd K N i k))

/-- The accumulations of the tiled loop for row `i`, in visit order. -/
def tiledOps (Ad Bd : List ℚ) (K N T i : Nat) : List (Nat × ℚ) :=
  (blockList 0 N T).flatMap (fun jj =>
    (blockList 0 K T).flatMap (fun kk =>
      (List.range' kk (min (kk + T) K - kk)).flatMap (fun k =>
        (List.range' jj (min (jj + T) N - jj)).map (mmPair Ad Bd K N i k))))

/-- Applies a list of accumulations to a buffer, in order. -/
def applyBumps (ops : List (Nat × ℚ)) (C : List ℚ) : List ℚ :=
  ops.foldl (fun C p => bump C p.1 p.2) C

/-- Total addend a list of accumulations contributes to buffer entry `m`. -/
def opsSum (ops : List (Nat × ℚ)) (m : Nat) : ℚ :=
  (ops.map (fun p => if p.1 = m then p.2 else 0)).sum

lemma loopStop_false {α : Type} (f : α → Nat → α) :
    ∀ (l : List Nat) (a : α), loopStop false f l a = l.foldl f a
  | [], _ => rfl
  | _ :: is, a => by
    rw [loopStop, if_neg (by simp), loopStop_false f is]
    rfl

lemma foldl_flatMap {α β γ : Type} (l : List α) (g : α → List β)
    (f : γ → β → γ) (c : γ) :
    (l.flatMap g).foldl f c = l.foldl (fun c a => (g a).foldl f c) c := by
  induction l generalizing c with
  | nil => rfl
  | cons a l ih => rw [List.flatMap_cons, List.foldl_append, List.foldl_cons, ih]

lemma getD_set_self (l : List ℚ) (i : Nat) (v : ℚ) (h : i < l.length) :
    getD (l.set i v) i = v := by
  simp [getD, List.getD_eq_getElem?_getD, List.getElem?_set, h]

lemma getD_set_ne (l : List ℚ) (i m : Nat) (v : ℚ) (h : i ≠ m) :
    getD (l.set i v) m = getD l m := by
  simp [getD, List.getD_eq_getElem?_getD, List.getElem?_set, h]

lemma getD_set_oob (l : List ℚ) (i : Nat) (v : ℚ) (h : ¬ i < l.length) :
    l.set i v = l :=
  List.set_eq_of_length_le (by omega)

lemma length_bump (C : List ℚ) (idx : Nat) (v : ℚ) :
    (bump C idx v).length = C.length := by
  simp [bump]

lemma getD_bump (C : List ℚ) (i : Nat) (v : ℚ) (m : Nat) :
    getD (bump C i v) m = getD C m + if i = m ∧ m < C.length then v else 0 := by
  rcases eq_or_ne i m with rfl | hne
  · by_cases h : i < C.length
    · rw [bump, getD_set_self _ _ _ h, if_pos ⟨rfl, h⟩]
    · rw [bump, getD_set_oob _ _ _ h, if_neg (by tauto)]
      simp
  · rw [bump, getD_set_ne _ _ _ _ hne, if_neg (by tauto)]
    simp

lemma applyBumps_length (ops : List (Nat × ℚ)) (C : List ℚ) :
    (applyBumps ops C).length = C.length := by
  induction ops generalizing C with
  | nil => rfl
  | cons p ops ih => rw [applyBumps, List.foldl_cons, ← applyBumps, ih, length_bump]

lemma opsSum_nil (m : Nat) : opsSum [] m = 0 := rfl

lemma opsSum_cons (p : Nat × ℚ) (ops : List (Nat × ℚ)) (m : Nat) :
    opsSum (p :: ops) m = (if p.1 = m then p.2 else 0) + opsSum ops m := by
  simp [opsSum]

lemma applyBumps_getD (ops : List (Nat × ℚ)) (C : List ℚ) (m : Nat) :
    getD (applyBumps ops C) m =
      getD C m + if m < C.length then opsSum ops m else 0 := by
  induction ops generalizing C with
  | nil => simp [applyBumps, opsSum_nil]
  | cons p ops ih =>
    rw [applyBumps, List.foldl_cons, ← applyBumps, ih, length_bump, getD_bump,
      opsSum_cons]
    by_cases h : m < C.length
    · rw [if_pos h, if_pos h]
      by_cases hp : p.1 = m
      · rw [if_pos ⟨hp, h⟩, if_pos hp]; ring
      · rw [if_neg (by tauto), if_neg hp]; ring
    · rw [if_neg h, if_neg h, if_neg (by tauto)]
      ring

lemma opsSum_append (l₁ l₂ : List (Nat × ℚ)) (m : Nat) :
    opsSum (l₁ ++ l₂) m = opsSum l₁ m + opsSum l₂ m := by
  simp [opsSum]

lemma opsSum_flatMap {α : Type} (l : List α) (g : α → List (Nat × ℚ)) (m : Nat) :
    opsSum (l.flatMap g) m = (l.map (fun a => opsSum (g a) m)).sum := by
  induction l with
  | nil => rfl
  | cons a l ih => rw [List.flatMap_cons, opsSum_append, List.map_cons,
      List.sum_cons, ih]

lemma opsSum_perm (l₁ l₂ : List (Nat × ℚ)) (m : Nat) (h : l₁.Perm l₂) :
    opsSum l₁ m = opsSum l₂ m :=
  (h.map _).sum_eq

lemma blockList_pos {s n T : Nat} (hT : 0 < T) (hs : s < n) :
    blockList s n T = s :: blockList (s + T) n T := by
  rw [blockList, dif_pos ⟨hT, hs⟩]

lemma blockList_neg {s n T : Nat} (h : ¬(0 < T ∧ s < n)) :
    blockList s n T = [] := by
  rw [blockList, dif_neg h]

lemma blockJoin_aux (T n : Nat) (hT : 0 < T) :
    ∀ (d s : Nat), n - s ≤ d →
      (blockList s n T).flatMap (fun x => List.range' x (min (x + T) n - x)) =
        List.range' s (n - s) := by
  intro d
  induction d with
  | zero =>
    intro s hs
    rw [blockList_neg (by omega), Nat.sub_eq_zero_of_le (by omega)]
    rfl
  | succ d ih =>
    intro s hs
    by_cases h : s < n
    · rw [blockList_pos hT h, List.flatMap_cons, ih (s + T) (by omega)]
      by_cases h2 : s + T ≤ n
      · have hm : min (s + T) n - s = T := by omega
        have happ := List.range'_append s T (n - (s + T)) 1
        simp only [one_mul, Nat.mul_one] at happ
        rw [hm, happ]
        congr 1
        omega
      · have hm : min (s + T) n - s = n - s := by omega
        have h0 : n - (s + T) = 0 := by omega
        rw [hm, h0]
        simp
    · rw [blockList_neg (by omega), Nat.sub_eq_zero_of_le (by omega)]
      rfl

lemma blockJoin (n T : Nat) (hT : 0 < T) :
    (blockList 0 n T).flatMap (fun x => List.range' x (min (x + T) n - x)) =
      List.range n := by
  rw [blockJoin_aux T n hT n 0 (by omega), Nat.sub_zero, List.range_eq_range']

lemma row_range_start_zero (R nt : Nat) : (row_range R 0 nt).1 = 0 := by
  simp [row_range]

lemma row_range_le (R nt t : Nat) :
    (row_range R t nt).1 ≤ (row_range R t nt).2 := by
  simp only [row_range]
  generalize R / nt = q
  generalize R % nt = r
  split_ifs <;> omega

lemma row_range_succ_start (R nt t : Nat) :
    (row_range R (t + 1) nt).1 = (row_range R t nt).2 := by
  simp only [row_range, Nat.add_mul, one_mul]
  generalize R / nt = q
  generalize R % nt = r
  split_ifs <;> omega

lemma row_range_last (R nt : Nat) (h : 1 ≤ nt) : (row_range R nt nt).1 = R := by
  have h1 : nt * (R / nt) + R % nt = R := Nat.div_add_mod R nt
  have h2 : R % nt < nt := Nat.mod_lt _ (by omega)
  simp only [row_range]
  generalize hq : R / nt = q at h1 ⊢
  generalize hr : R % nt = r at h1 h2 ⊢
  omega

lemma adjacent_mono (s : Nat → Nat) (N : Nat) (h : ∀ t, t < N → s t ≤ s (t + 1)) :
    ∀ t, t ≤ N → s 0 ≤ s t := by
  intro t
  induction t with
  | zero => intro _; exact le_rfl
  | succ t ih => intro ht; exact (ih (by omega)).trans (h t (by omega))

lemma flatMap_range'_adjacent (s : Nat → Nat) :
    ∀ N, (∀ t, t < N → s t ≤ s (t + 1)) →
      (List.range N).flatMap (fun t => List.range' (s t) (s (t + 1) - s t)) =
        List.range' (s 0) (s N - s 0) := by
  intro N
  induction N with
  | zero => intro _; rw [Nat.sub_self]; rfl
  | succ N ih =>
    intro h
    have hm : s 0 ≤ s N := adjacent_mono s (N + 1) h N (by omega)
    have hm2 : s N ≤ s (N + 1) := h N (by omega)
    rw [List.range_succ, List.flatMap_append, ih (fun t ht => h t (by omega))]
    have happ := List.range'_append (s 0) (s N - s 0) (s (N + 1) - s N) 1
    simp only [one_mul, Nat.mul_one] at happ
    rw [show s 0 + (s N - s 0) = s N by omega] at happ
    simp only [List.flatMap_cons, List.flatMap_nil, List.append_nil]
    rw [happ]
    congr 1
    omega

lemma row_range_start_mono (R nt t : Nat) :
    (row_range R t nt).1 ≤ (row_range R (t + 1) nt).1 := by
  rw [row_range_succ_start]
  exact row_range_le R nt t

lemma rowsJoin (R nt : Nat) (h : 1 ≤ nt) :
    (List.range nt).flatMap (fun t => rowsOf R t nt) = List.range R := by
  have hfun : (fun t => rowsOf R t nt) =
      (fun t => List.range' ((row_range R t nt).1)
        ((row_range R (t + 1) nt).1 - (row_range R t nt).1)) := by
    funext t
    rw [rowsOf, row_range_succ_start]
  rw [hfun, flatMap_range'_adjacent (fun t => (row_range R t nt).1) nt
      (fun t _ => row_range_start_mono R nt t),
    row_range_start_zero, row_range_last R nt h, Nat.sub_zero, List.range_eq_range']

lemma coerceNt_pos (nt : Int) : 1 ≤ coerceNt nt := by
  rw [coerceNt]
  split_ifs with h
  · rfl
  · omega

lemma applyBumps_flatMap {α : Type} (l : List α) (g : α → List (Nat × ℚ))
    (C : List ℚ) :
    applyBumps (l.flatMap g) C = l.foldl (fun C a => applyBumps (g a) C) C := by
  rw [applyBumps, foldl_flatMap]
  rfl

lemma mmRowUntiled_eq (Ad Bd : List ℚ) (K N i : Nat) (Cd : List ℚ) :
    mmRowUntiled Ad Bd K N i Cd = applyBumps (untiledOps Ad Bd K N i) Cd := by
  rw [mmRowUntiled, untiledOps, applyBumps, foldl_flatMap]
  simp only [List.foldl_map, mmPair]

lemma mmRowTiled_eq (Ad Bd : List ℚ) (K N T i : Nat) (Cd : List ℚ) :
    mmRowTiled Ad Bd K N T i Cd = applyBumps (tiledOps Ad Bd K N T i) Cd := by
  rw [mmRowTiled, tiledOps, applyBumps, foldl_flatMap]
  simp only [foldl_flatMap, List.foldl_map, mmPair]

lemma mmRun_untiled (Ad Bd : List ℚ) (R K N : Nat) (tile : Int) (ht : tile ≤ 0)
    (nt : Nat) (h : 1 ≤ nt) (Cd : List ℚ) :
    (List.range nt).foldl (fun Cd t => mm_worker false R K N Ad Bd tile t nt Cd) Cd =
      applyBumps ((List.range R).flatMap (untiledOps Ad Bd K N)) Cd := by
  have hf : (fun Cd t => mm_worker false R K N Ad Bd tile t nt Cd)
      = (fun Cd t => (rowsOf R t nt).foldl (fun C i => mmRowUntiled Ad Bd K N i C) Cd) := by
    funext Cd t
    rw [mm_worker, if_pos ht, loopStop_false]
  rw [hf, ← foldl_flatMap, rowsJoin R nt h, applyBumps_flatMap]
  have hg : (fun (C : List ℚ) i => mmRowUntiled Ad Bd K N i C)
      = (fun C i => applyBumps (untiledOps Ad Bd K N i) C) := by
    funext C i
    rw [mmRowUntiled_eq]
  rw [hg]

lemma mmRun_tiled (Ad Bd : List ℚ) (R K N : Nat) (tile : Int) (ht : 0 < tile)
    (nt : Nat) (h : 1 ≤ nt) (Cd : List ℚ) :
    (List.range nt).foldl (fun Cd t => mm_worker false R K N Ad Bd tile t nt Cd) Cd =
      applyBumps ((List.range R).flatMap (tiledOps Ad Bd K N tile.toNat)) Cd := by
  have hf : (fun Cd t => mm_worker false R K N Ad Bd tile t nt Cd)
      = (fun Cd t => (rowsOf R t nt).foldl
          (fun C i => mmRowTiled Ad Bd K N tile.toNat i C) Cd) := by
    funext Cd t
    rw [mm_worker, if_neg (by omega), loopStop_false]
  rw [hf, ← foldl_flatMap, rowsJoin R nt h, applyBumps_flatMap]
  have hg : (fun (C : List ℚ) i => mmRowTiled Ad Bd K N tile.toNat i C)
      = (fun C i => applyBumps (tiledOps Ad Bd K N tile.toNat i) C) := by
    funext C i
    rw [mmRowTiled_eq]
  rw [hg]

lemma mvRun (Ad xd : List ℚ) (R Acols : Nat) (nt : Nat) (h : 1 ≤ nt)
    (yd : List ℚ) :
    (List.range nt).foldl (fun yd t => mv_worker false R Acols Ad xd t nt yd) yd =
      (List.range R).foldl (fun y i => y.set i (rowSum Ad xd Acols i)) yd := by
  have hf : (fun yd t => mv_worker false R Acols Ad xd t nt yd)
      = (fun yd t => (rowsOf R t nt).foldl
          (fun y i => y.set i (rowSum Ad xd Acols i)) yd) := by
    funext yd t
    rw [mv_worker, loopStop_false]
  rw [hf, ← foldl_flatMap, rowsJoin R nt h]

lemma axRun (a : ℚ) (xd : List ℚ) (n : Nat) (nt : Nat) (h : 1 ≤ nt)
    (yd : List ℚ) :
    (List.range nt).foldl (fun yd t => ax_worker false a xd n t nt yd) yd =
      (List.range n).foldl (fun y i => y.set i (a * getD xd i + getD y i)) yd := by
  have hf : (fun yd t => ax_worker false a xd n t nt yd)
      = (fun yd t => (rowsOf n t nt).foldl
          (fun y i => y.set i (a * getD xd i + getD y i)) yd) := by
    funext yd t
    rw [ax_worker, loopStop_false]
  rw [hf, ← foldl_flatMap, rowsJoin n nt h]

lemma foldl_add_map (f : Nat → ℚ) :
    ∀ (l : List Nat) (c : ℚ), l.foldl (fun s i => s + f i) c = c + (l.map f).sum
  | [], c => by simp
  | i :: is, c => by
    rw [List.foldl_cons, foldl_add_map f is, List.map_cons, List.sum_cons]
    ring

lemma sum_flatMap {α : Type} (g : α → List ℚ) :
    ∀ l : List α, (l.flatMap g).sum = (l.map (fun a => (g a).sum)).sum
  | [] => rfl
  | a :: l => by
    rw [List.flatMap_cons, List.sum_append, List.map_cons, List.sum_cons,
      sum_flatMap g l]

lemma dtRun (xd yd : List ℚ) (n : Nat) (nt : Nat) (h : 1 ≤ nt) :
    (List.range nt).foldl (fun s t => s + dt_worker false xd yd n t nt) 0 =
      seqDot xd yd n := by
  have hw : ∀ t, dt_worker false xd yd n t nt =
      ((rowsOf n t nt).map (fun i => getD xd i * getD yd i)).sum := by
    intro t
    rw [dt_worker, loopStop_false, foldl_add_map]
    ring
  rw [foldl_add_map, zero_add]
  have hm : (List.range nt).map (fun t => dt_worker false xd yd n t nt)
      = (List.range nt).map (fun t =>
          ((rowsOf n t nt).map (fun i => getD xd i * getD yd i)).sum) := by
    exact List.map_congr_left (fun t _ => hw t)
  rw [hm, seqDot, ← rowsJoin n nt h, List.map_flatMap, sum_flatMap]

lemma getD_eq_getElem (l : List ℚ) (m : Nat) (h : m < l.length) :
    getD l m = l[m] :=
  List.getD_eq_getElem l 0 h

lemma tiledOps_perm (Ad Bd : List ℚ) (K N T i : Nat) (hT : 0 < T) :
    (tiledOps Ad Bd K N T i).Perm (untiledOps Ad Bd K N i) := by
  rw [← Multiset.coe_eq_coe, tiledOps, untiledOps]
  simp only [← Multiset.coe_bind, ← Multiset.map_coe]
  have hkk : ∀ jj : Nat,
      ((blockList 0 K T : List Nat) : Multiset Nat).bind (fun kk =>
        ((List.range' kk (min (kk + T) K - kk) : List Nat) : Multiset Nat).bind (fun k =>
          Multiset.map (mmPair Ad Bd K N i k)
            ((List.range' jj (min (jj + T) N - jj) : List Nat) : Multiset Nat)))
      = ((List.range K : List Nat) : Multiset Nat).bind (fun k =>
          Multiset.map (mmPair Ad Bd K N i k)
            ((List.range' jj (min (jj + T) N - jj) : List Nat) : Multiset Nat)) := by
    intro jj
    rw [← Multiset.bind_assoc]
    congr 1
    rw [Multiset.coe_bind, blockJoin K T hT]
  refine Eq.trans (Multiset.bind_congr (fun jj _ => hkk jj)) ?_
  refine Eq.trans (Multiset.bind_bind _ _) ?_
  refine Multiset.bind_congr (fun k _ => ?_)
  rw [← Multiset.map_bind, Multiset.coe_bind, blockJoin N T hT]

lemma opsSum_all_eq (Ad Bd : List ℚ) (R K N T : Nat) (hT : 0 < T) (m : Nat) :
    opsSum ((List.range R).flatMap (tiledOps Ad Bd K N T)) m =
      opsSum ((List.range R).flatMap (untiledOps Ad Bd K N)) m := by
  rw [opsSum_flatMap, opsSum_flatMap]
  exact congrArg List.sum (List.map_congr_left
    (fun i _ => opsSum_perm _ _ m (tiledOps_perm Ad Bd K N T i hT)))

lemma mm_data_eq (Ad Bd : List ℚ) (R K N T : Nat) (hT : 0 < T) (Cd0 : List ℚ) :
    applyBumps ((List.range R).flatMap (tiledOps Ad Bd K N T)) Cd0 =
      applyBumps ((List.range R).flatMap (untiledOps Ad Bd K N)) Cd0 := by
  apply List.ext_getElem
  · rw [applyBumps_length, applyBumps_length]
  · intro m h1 h2
    rw [applyBumps_length] at h1 h2
    rw [← getD_eq_getElem _ m (by rw [applyBumps_length]; exact h1),
      ← getD_eq_getElem _ m (by rw [applyBumps_length]; exact h2),
      applyBumps_getD, applyBumps_getD, opsSum_all_eq Ad Bd R K N T hT m]

lemma mm_mt_ok_untiled (M K N : Nat) (Ad Bd Cd : List ℚ) (ntI tile : Int)
    (h : tile ≤ 0) :
    mm_mt ⟨M, K, some Ad⟩ ⟨K, N, some Bd⟩ ⟨M, N, some Cd⟩ ⟨ntI, tile⟩ true false =
      (0, ⟨M, N, some (applyBumps ((List.range M).flatMap (untiledOps Ad Bd K N))
          (zeroFill M N Cd))⟩) := by
  simp only [mm_mt]
  rw [if_neg (by simp), if_neg (by simp), if_pos trivial,
    mmRun_untiled Ad Bd M K N tile h (coerceNt ntI) (coerceNt_pos ntI)]

lemma mm_mt_ok_tiled (M K N : Nat) (Ad Bd Cd : List ℚ) (ntI tile : Int)
    (h : 0 < tile) :
    mm_mt ⟨M, K, some Ad⟩ ⟨K, N, some Bd⟩ ⟨M, N, some Cd⟩ ⟨ntI, tile⟩ true false =
      (0, ⟨M, N, some (applyBumps
          ((List.range M).flatMap (tiledOps Ad Bd K N tile.toNat))
          (zeroFill M N Cd))⟩) := by
  simp only [mm_mt]
  rw [if_neg (by simp), if_neg (by simp), if_pos trivial,
    mmRun_tiled Ad Bd M K N tile h (coerceNt ntI) (coerceNt_pos ntI)]

lemma foldl_set_length (g : Nat → ℚ → ℚ) :
    ∀ (l : List Nat) (yd : List ℚ),
      (l.foldl (fun y i => y.set i (g i (getD y i))) yd).length = yd.length
  | [], _ => rfl
  | i :: is, yd => by
    rw [List.foldl_cons, foldl_set_length g is, List.length_set]

lemma foldl_set_getD (g : Nat → ℚ → ℚ) :
    ∀ (l : List Nat), l.Nodup → ∀ (yd : List ℚ) (m : Nat),
      getD (l.foldl (fun y i => y.set i (g i (getD y i))) yd) m =
        if m ∈ l ∧ m < yd.length then g m (getD yd m) else getD yd m := by
  intro l
  induction l with
  | nil => intro _ yd m; simp
  | cons i is ih =>
    intro hnd yd m
    rw [List.nodup_cons] at hnd
    rw [List.foldl_cons, ih hnd.2, List.length_set]
    by_cases hmem : m ∈ is
    · have hne : i ≠ m := fun h => hnd.1 (h ▸ hmem)
      rw [getD_set_ne _ _ _ _ hne]
      by_cases hlen : m < yd.length
      · rw [if_pos ⟨hmem, hlen⟩, if_pos ⟨List.mem_cons_of_mem i hmem, hlen⟩]
      · rw [if_neg (by tauto), if_neg (by tauto)]
    · rw [if_neg (by tauto)]
      by_cases hmi : m = i
      · subst hmi
        by_cases hlen : m < yd.length
        · rw [getD_set_self _ _ _ hlen, if_pos ⟨List.mem_cons_self m is, hlen⟩]
        · rw [getD_set_oob _ _ _ hlen, if_neg (by tauto)]
      · rw [getD_set_ne _ _ _ _ (fun h => hmi h.symm)]
        have hnc : ¬ m ∈ i :: is := by
          rw [List.mem_cons]
          tauto
        rw [if_neg (by tauto)]

lemma foldl_set_eq_map (g : Nat → ℚ → ℚ) (n : Nat) (yd : List ℚ)
    (hy : yd.length = n) :
    (List.range n).foldl (fun y i => y.set i (g i (getD y i))) yd =
      (List.range n).map (fun i => g i (getD yd i)) := by
  apply List.ext_getElem
  · rw [foldl_set_length, List.length_map, List.length_range, hy]
  · intro m h1 h2
    rw [List.length_map, List.length_range] at h2
    rw [List.getElem_map, List.getElem_range,
      ← getD_eq_getElem _ m h1, foldl_set_getD g _ (List.nodup_range n) yd m,
      if_pos ⟨List.mem_range.mpr h2, by omega⟩]

lemma mv_mt_ok (M K : Nat) (Ad xd yd : List ℚ) (cfg : KCfg) :
    mv_mt ⟨M, K, some Ad⟩ ⟨K, some xd⟩ ⟨M, some yd⟩ cfg true false =
      (0, ⟨M, some ((List.range M).foldl
          (fun y i => y.set i (rowSum Ad xd K i)) yd)⟩) := by
  simp only [mv_mt]
  rw [if_neg (by simp), if_pos trivial,
    mvRun Ad xd M K (coerceNt cfg.nt) (coerceNt_pos cfg.nt) yd]

lemma dt_mt_ok (n : Nat) (xd yd : List ℚ) (out : ℚ) (ntI : Int) :
    dt_mt ⟨n, some xd⟩ ⟨n, some yd⟩ out ntI true false = (0, seqDot xd yd n) := by
  simp only [dt_mt]
  rw [if_neg (by simp), if_pos trivial,
    dtRun xd yd n (coerceNt ntI) (coerceNt_pos ntI)]

lemma ax_mt_ok (n : Nat) (a : ℚ) (xd yd : List ℚ) (hy : yd.length = n)
    (ntI : Int) :
    ax_mt a ⟨n, some xd⟩ ⟨n, some yd⟩ ntI true false =
      (0, ⟨n, some ((List.range n).map
          (fun i => a * getD xd i + getD yd i))⟩) := by
  simp only [ax_mt]
  rw [if_neg (by simp), if_pos trivial,
    axRun a xd n (coerceNt ntI) (coerceNt_pos ntI) yd,
    foldl_set_eq_map (fun i cur => a * getD xd i + cur) n yd hy]

lemma zeroFill_of_length (r c : Nat) (l : List ℚ) (h : l.length = r * c) :
    zeroFill r c l = List.replicate (r * c) 0 := by
  rw [zeroFill, List.drop_eq_nil_of_le (by omega), List.append_nil]

lemma mm_mt_dims_only (M K N : Nat) (Ad Bd Cd Dd : List ℚ)
    (hC : Cd.length = M * N) (hD : Dd.length = M * N) (ntI tile : Int) :
    mm_mt ⟨M, K, some Ad⟩ ⟨K, N, some Bd⟩ ⟨M, N, some Dd⟩ ⟨ntI, tile⟩ true false =
      mm_mt ⟨M, K, some Ad⟩ ⟨K, N, some Bd⟩ ⟨M, N, some Cd⟩ ⟨ntI, tile⟩ true false := by
  rcases le_or_lt tile 0 with ht | ht
  · rw [mm_mt_ok_untiled M K N Ad Bd Dd ntI tile ht,
      mm_mt_ok_untiled M K N Ad Bd Cd ntI tile ht,
      zeroFill_of_length M N Dd hD, zeroFill_of_length M N Cd hC]
  · rw [mm_mt_ok_tiled M K N Ad Bd Dd ntI tile ht,
      mm_mt_ok_tiled M K N Ad Bd Cd ntI tile ht,
      zeroFill_of_length M N Dd hD, zeroFill_of_length M N Cd hC]

lemma row_range_size (R N t : Nat) :
    (row_range R t N).2 - (row_range R t N).1 =
      R / N + (if t < R % N then 1 else 0) := by
  simp only [row_range]
  generalize R / N = q
  generalize R % N = r
  split_ifs <;> omega

lemma row_range_size_floor_ceil (R N t : Nat) (hN : 1 ≤ N) :
    (row_range R t N).2 - (row_range R t N).1 = R / N ∨
      (row_range R t N).2 - (row_range R t N).1 = (R + N - 1) / N := by
  rw [row_range_size]
  by_cases h : t < R % N
  · right
    rw [if_pos h]
    have hdm := Nat.div_add_mod R N
    have hlt : R % N < N := Nat.mod_lt _ (by omega)
    have hmul : N * (R / N + 1) = N * (R / N) + N := by ring
    have h1 : R + N - 1 = N * (R / N + 1) + (R % N - 1) := by
      rw [hmul]
      omega
    have hz : (R % N - 1) / N = 0 := Nat.div_eq_of_lt (by omega)
    rw [h1, Nat.mul_add_div (by omega), hz]
  · left
    rw [if_neg h]
    omega

lemma row_range_start_le (R N : Nat) :
    ∀ t u, t ≤ u → (row_range R t N).1 ≤ (row_range R u N).1 := by
  intro t u h
  induction h with
  | refl => exact le_rfl
  | step _ ih => exact ih.trans (row_range_start_mono R N _)

lemma row_range_disjoint (R N : Nat) :
    ∀ t u, t < u → (row_range R t N).2 ≤ (row_range R u N).1 := by
  intro t u h
  rw [← row_range_succ_start]
  exact row_range_start_le R N (t + 1) u h

/-- Claim C1: for every total row count R ≥ 0 and worker count N ≥ 1 the
partitioner assigns each worker a half-open range; across workers
0..N-1 the ranges are contiguous (each range ends where the next starts),
ascending and pairwise disjoint, their concatenation in worker order is
exactly [0, R), and each range's size is base plus one extra row for
workers of index below the remainder, hence either ⌊R/N⌋ or ⌈R/N⌉. -/
theorem claim1_row_range_partition (R N : Nat) (hN : 1 ≤ N) :
    ((List.range N).flatMap (fun t => rowsOf R t N) = List.range R) ∧
    (∀ t, (row_range R t N).2 = (row_range R (t + 1) N).1) ∧
    (∀ t u, t < u → (row_range R t N).2 ≤ (row_range R u N).1) ∧
    (∀ t, (row_range R t N).2 - (row_range R t N).1 =
        R / N + (if t < R % N then 1 else 0)) ∧
    (∀ t, (row_range R t N).2 - (row_range R t N).1 = R / N ∨
        (row_range R t N).2 - (row_range R t N).1 = (R + N - 1) / N) :=
  ⟨rowsJoin R N hN, fun t => (row_range_succ_start R N t).symm,
    row_range_disjoint R N, row_range_size R N,
    fun t => row_range_size_floor_ceil R N t hN⟩

/-- Witness for C1 at R = 7 rows and N = 3 workers. -/
theorem claim1_row_range_partition_witness :
    1 ≤ 3 ∧ ((List.range 3).flatMap (fun t => rowsOf 7 t 3) = List.range 7) :=
  ⟨by decide, (claim1_row_range_partition 7 3 (by decide)).1⟩

/-- Claim C2: with compatible dimensions, matrix multiply with tiling
enabled (any tile edge > 0) and disabled (tile ≤ 0) returns identical
results in exact arithmetic, for any thread counts. -/
theorem claim2_mm_tile_equiv (M K N : Nat) (Ad Bd Cd : List ℚ)
    (cfgU cfgT : KCfg) (hU : cfgU.tile ≤ 0) (hT : 0 < cfgT.tile) :
    mm_mt ⟨M, K, some Ad⟩ ⟨K, N, some Bd⟩ ⟨M, N, some Cd⟩ cfgT true false =
      mm_mt ⟨M, K, some Ad⟩ ⟨K, N, some Bd⟩ ⟨M, N, some Cd⟩ cfgU true false := by
  rcases cfgU with ⟨nt1, tile1⟩
  rcases cfgT with ⟨nt2, tile2⟩
  have hU2 : tile1 ≤ 0 := hU
  have hT2 : 0 < tile2 := hT
  rw [mm_mt_ok_untiled M K N Ad Bd Cd nt1 tile1 hU2,
    mm_mt_ok_tiled M K N Ad Bd Cd nt2 tile2 hT2,
    mm_data_eq Ad Bd M K N tile2.toNat (by omega) (zeroFill M N Cd)]

/-- Witness for C2: 2x2 matrices, tile 16 with 3 threads against untiled
with 2 threads. -/
theorem claim2_mm_tile_equiv_witness :
    ((⟨2, 0⟩ : KCfg).tile ≤ 0) ∧ (0 < (⟨3, 16⟩ : KCfg).tile) ∧
      mm_mt ⟨2, 2, some [1, 2, 3, 4]⟩ ⟨2, 2, some [5, 6, 7, 8]⟩
          ⟨2, 2, some [0, 0, 0, 0]⟩ ⟨3, 16⟩ true false =
        mm_mt ⟨2, 2, some [1, 2, 3, 4]⟩ ⟨2, 2, some [5, 6, 7, 8]⟩
          ⟨2, 2, some [0, 0, 0, 0]⟩ ⟨2, 0⟩ true false :=
  ⟨by decide, by decide,
    claim2_mm_tile_equiv 2 2 2 [1, 2, 3, 4] [5, 6, 7, 8] [0, 0, 0, 0]
      ⟨2, 0⟩ ⟨3, 16⟩ (by decide) (by decide)⟩

/-- Claim C3: with valid inputs, matrix multiply zero-fills C before
accumulating, so calling it a second time on its own output returns
exactly the same result: repeated calls do not accumulate. -/
theorem claim3_mm_idempotent (M K N : Nat) (Ad Bd Cd : List ℚ)
    (hC : Cd.length = M * N) (cfg : KCfg) :
    mm_mt ⟨M, K, some Ad⟩ ⟨K, N, some Bd⟩
        (mm_mt ⟨M, K, some Ad⟩ ⟨K, N, some Bd⟩ ⟨M, N, some Cd⟩ cfg true false).2
        cfg true false =
      mm_mt ⟨M, K, some Ad⟩ ⟨K, N, some Bd⟩ ⟨M, N, some Cd⟩ cfg true false := by
  rcases cfg with ⟨ntI, tile⟩
  have hrep : zeroFill M N Cd = List.replicate (M * N) 0 :=
    zeroFill_of_length M N Cd hC
  rcases le_or_lt tile 0 with ht | ht
  · rw [mm_mt_ok_untiled M K N Ad Bd Cd ntI tile ht]
    dsimp only
    have hD : (applyBumps ((List.range M).flatMap (untiledOps Ad Bd K N))
        (zeroFill M N Cd)).length = M * N := by
      rw [applyBumps_length, hrep, List.length_replicate]
    rw [mm_mt_dims_only M K N Ad Bd Cd _ hC hD ntI tile,
      mm_mt_ok_untiled M K N Ad Bd Cd ntI tile ht]
  · rw [mm_mt_ok_tiled M K N Ad Bd Cd ntI tile ht]
    dsimp only
    have hD : (applyBumps ((List.range M).flatMap (tiledOps Ad Bd K N tile.toNat))
        (zeroFill M N Cd)).length = M * N := by
      rw [applyBumps_length, hrep, List.length_replicate]
    rw [mm_mt_dims_only M K N Ad Bd Cd _ hC hD ntI tile,
      mm_mt_ok_tiled M K N Ad Bd Cd ntI tile ht]

/-- Witness for C3 on a concrete 2x2 product with 2 threads and tile 16. -/
theorem claim3_mm_idempotent_witness :
    ([9, 9, 9, 9] : List ℚ).length = 2 * 2 ∧
      mm_mt ⟨2, 2, some [1, 2, 3, 4]⟩ ⟨2, 2, some [5, 6, 7, 8]⟩
          (mm_mt ⟨2, 2, some [1, 2, 3, 4]⟩ ⟨2, 2, some [5, 6, 7, 8]⟩
            ⟨2, 2, some [9, 9, 9, 9]⟩ ⟨2, 16⟩ true false).2 ⟨2, 16⟩ true false =
        mm_mt ⟨2, 2, some [1, 2, 3, 4]⟩ ⟨2, 2, some [5, 6, 7, 8]⟩
          ⟨2, 2, some [9, 9, 9, 9]⟩ ⟨2, 16⟩ true false :=
  ⟨by decide,
    claim3_mm_idempotent 2 2 2 [1, 2, 3, 4] [5, 6, 7, 8] [9, 9, 9, 9]
      (by decide) ⟨2, 16⟩⟩

/-- Claim C4 (amended): dimension-mismatch failures are detected before any
worker is dispatched and leave the output exactly as it was, for all four
kernels; allocation failures for the per-call scratch storage also leave
the output untouched for mv, dot and axpy, but in mm the zero-fill of C
precedes the scratch allocation, so an allocation failure returns with C
zero-filled rather than with its prior contents. -/
theorem claim4_error_paths :
    (∀ (M K n m : Nat) (Ad xd yd : List ℚ) (cfg : KCfg) (ok g : Bool),
        K ≠ n ∨ M ≠ m →
        mv_mt ⟨M, K, some Ad⟩ ⟨n, some xd⟩ ⟨m, some yd⟩ cfg ok g =
          (-1, ⟨m, some yd⟩)) ∧
    (∀ (M K : Nat) (Ad xd yd : List ℚ) (cfg : KCfg) (g : Bool),
        mv_mt ⟨M, K, some Ad⟩ ⟨K, some xd⟩ ⟨M, some yd⟩ cfg false g =
          (-1, ⟨M, some yd⟩)) ∧
    (∀ (n m : Nat) (xd yd : List ℚ) (out : ℚ) (ntI : Int) (ok g : Bool),
        n ≠ m → dt_mt ⟨n, some xd⟩ ⟨m, some yd⟩ out ntI ok g = (-1, out)) ∧
    (∀ (n : Nat) (xd yd : List ℚ) (out : ℚ) (ntI : Int) (g : Bool),
        dt_mt ⟨n, some xd⟩ ⟨n, some yd⟩ out ntI false g = (-1, out)) ∧
    (∀ (n m : Nat) (a : ℚ) (xd yd : List ℚ) (ntI : Int) (ok g : Bool),
        n ≠ m → ax_mt a ⟨n, some xd⟩ ⟨m, some yd⟩ ntI ok g =
          (-1, ⟨m, some yd⟩)) ∧
    (∀ (n : Nat) (a : ℚ) (xd yd : List ℚ) (ntI : Int) (g : Bool),
        ax_mt a ⟨n, some xd⟩ ⟨n, some yd⟩ ntI false g = (-1, ⟨n, some yd⟩)) ∧
    (∀ (M K Kb N cr cc : Nat) (Ad Bd Cd : List ℚ) (cfg : KCfg) (ok g : Bool),
        K ≠ Kb ∨ cr ≠ M ∨ cc ≠ N →
        mm_mt ⟨M, K, some Ad⟩ ⟨Kb, N, some Bd⟩ ⟨cr, cc, some Cd⟩ cfg ok g =
          (-1, ⟨cr, cc, some Cd⟩)) ∧
    (∀ (M K N : Nat) (Ad Bd Cd : List ℚ) (cfg : KCfg) (g : Bool),
        mm_mt ⟨M, K, some Ad⟩ ⟨K, N, some Bd⟩ ⟨M, N, some Cd⟩ cfg false g =
          (-1, ⟨M, N, some (zeroFill M N Cd)⟩)) := by
  refine ⟨?_, ?_, ?_, ?_, ?_, ?_, ?_, ?_⟩
  · intro M K n m Ad xd yd cfg ok g hcond
    simp only [mv_mt]
    rw [if_pos (by tauto)]
  · intro M K Ad xd yd cfg g
    simp only [mv_mt]
    rw [if_neg (by simp), if_neg (by simp)]
  · intro n m xd yd out ntI ok g hcond
    simp only [dt_mt]
    rw [if_pos (by tauto)]
  · intro n xd yd out ntI g
    simp only [dt_mt]
    rw [if_neg (by simp), if_neg (by simp)]
  · intro n m a xd yd ntI ok g hcond
    simp only [ax_mt]
    rw [if_pos (by tauto)]
  · intro n a xd yd ntI g
    simp only [ax_mt]
    rw [if_neg (by simp), if_neg (by simp)]
  · intro M K Kb N cr cc Ad Bd Cd cfg ok g hcond
    simp only [mm_mt]
    by_cases h1 : K = Kb
    · subst h1
      rw [if_neg (by simp), if_pos (by tauto)]
    · rw [if_pos h1]
  · intro M K N Ad Bd Cd cfg g
    simp only [mm_mt]
    rw [if_neg (by simp), if_neg (by simp), if_neg (by simp)]

/-- Witness for C4: instantiates every conjunct; the mismatch branches at
a 3x4 matrix against a length-5 vector and kindred shape errors. -/
theorem claim4_error_paths_witness :
    ((4 : Nat) ≠ 5 ∨ (3 : Nat) ≠ 3) ∧
      mv_mt ⟨3, 4, some []⟩ ⟨5, some []⟩ ⟨3, some [7]⟩ ⟨2, 0⟩ true false =
        (-1, ⟨3, some [7]⟩) ∧
      mv_mt ⟨1, 1, some [1]⟩ ⟨1, some [1]⟩ ⟨1, some [7]⟩ ⟨2, 0⟩ false false =
        (-1, ⟨1, some [7]⟩) ∧
      dt_mt ⟨2, some [1, 1]⟩ ⟨3, some [1, 1, 1]⟩ 9 2 true false = (-1, 9) ∧
      dt_mt ⟨2, some [1, 1]⟩ ⟨2, some [1, 1]⟩ 9 2 false false = (-1, 9) ∧
      ax_mt 2 ⟨2, some [1, 1]⟩ ⟨3, some [5, 5, 5]⟩ 2 true false =
        (-1, ⟨3, some [5, 5, 5]⟩) ∧
      ax_mt 2 ⟨2, some [1, 1]⟩ ⟨2, some [5, 5]⟩ 2 false false =
        (-1, ⟨2, some [5, 5]⟩) ∧
      mm_mt ⟨2, 3, some []⟩ ⟨4, 2, some []⟩ ⟨2, 2, some [8, 8, 8, 8]⟩
          ⟨2, 16⟩ true false = (-1, ⟨2, 2, some [8, 8, 8, 8]⟩) ∧
      mm_mt ⟨1, 1, some [1]⟩ ⟨1, 1, some [1]⟩ ⟨1, 1, some [5]⟩ ⟨1, 0⟩ false false =
        (-1, ⟨1, 1, some (zeroFill 1 1 [5])⟩) :=
  ⟨by decide,
    claim4_error_paths.1 3 4 5 3 [] [] [7] ⟨2, 0⟩ true false (by decide),
    claim4_error_paths.2.1 1 1 [1] [1] [7] ⟨2, 0⟩ false,
    claim4_error_paths.2.2.1 2 3 [1, 1] [1, 1, 1] 9 2 true false (by decide),
    claim4_error_paths.2.2.2.1 2 [1, 1] [1, 1] 9 2 false,
    claim4_error_paths.2.2.2.2.1 2 3 2 [1, 1] [5, 5, 5] 2 true false (by decide),
    claim4_error_paths.2.2.2.2.2.1 2 2 [1, 1] [5, 5] 2 false,
    claim4_error_paths.2.2.2.2.2.2.1 2 3 4 2 2 2 [] [] [8, 8, 8, 8] ⟨2, 16⟩
      true false (by decide),
    claim4_error_paths.2.2.2.2.2.2.2 1 1 1 [1] [1] [5] ⟨1, 0⟩ false⟩

/-- Counterexample for C4 as stated: an allocation failure in mm does not
leave C with its prior contents, because C was already zero-filled. -/
theorem claim4_mm_alloc_fail_cex :
    (mm_mt ⟨1, 1, some [1]⟩ ⟨1, 1, some [1]⟩ ⟨1, 1, some [5]⟩ ⟨1, 0⟩
        false false).1 = -1 ∧
      (mm_mt ⟨1, 1, some [1]⟩ ⟨1, 1, some [1]⟩ ⟨1, 1, some [5]⟩ ⟨1, 0⟩
        false false).2 ≠ ⟨1, 1, some [5]⟩ := by
  constructor
  · simp [mm_mt]
  · simp [mm_mt, zeroFill]

/-- Counterexample for C5 as stated: a zero-length vector produced by the
allocator carries an absent buffer, so the dot kernel returns the error
status -1, not success. -/
theorem claim5_zero_size_cex :
    (dt_mt (v_alloc 0 true) (v_alloc 0 true) (37 / 10) 5 true false).1 ≠ 0 := by
  simp [v_alloc, dt_mt]

/-- Claim C5 (amended): zero-size inputs are handled without crashing and
no output element is written, but zero-size matrices and vectors as
produced by the allocators carry absent buffers, so all four kernels
reject them with the error status -1 (the output, including the dot
scalar, is returned unchanged) rather than with success. -/
theorem claim5_zero_size_rejected (r c : Nat) (ok : Bool) (x y : Vec)
    (C B : Mat) (out a : ℚ) (cfg : KCfg) (ntI : Int) (allocOk g : Bool)
    (hrc : r = 0 ∨ c = 0) :
    mv_mt (m_alloc r c ok) x y cfg allocOk g = (-1, y) ∧
    mm_mt (m_alloc r c ok) B C cfg allocOk g = (-1, C) ∧
    dt_mt (v_alloc 0 ok) y out ntI allocOk g = (-1, out) ∧
    ax_mt a (v_alloc 0 ok) y ntI allocOk g = (-1, y) := by
  have hm : m_alloc r c ok = ⟨r, c, none⟩ := by rw [m_alloc, if_pos hrc]
  have hv : v_alloc 0 ok = ⟨0, none⟩ := by rw [v_alloc, if_pos rfl]
  rw [hm, hv]
  refine ⟨?_, ?_, ?_, ?_⟩
  · rw [mv_mt]
  · rw [mm_mt]
  · rw [dt_mt]
  · rw [ax_mt]

/-- Witness for C5 (amended) at r = 0, c = 3. -/
theorem claim5_zero_size_rejected_witness :
    ((0 : Nat) = 0 ∨ (3 : Nat) = 0) ∧
      mv_mt (m_alloc 0 3 true) ⟨3, some [1, 1, 1]⟩ ⟨0, some []⟩ ⟨2, 0⟩
          true false = (-1, ⟨0, some []⟩) ∧
      mm_mt (m_alloc 0 3 true) ⟨3, 1, some [1, 1, 1]⟩ ⟨0, 1, some []⟩ ⟨2, 0⟩
          true false = (-1, ⟨0, 1, some []⟩) ∧
      dt_mt (v_alloc 0 true) ⟨0, some []⟩ 9 2 true false = (-1, 9) ∧
      ax_mt 2 (v_alloc 0 true) ⟨0, some []⟩ 2 true false = (-1, ⟨0, some []⟩) :=
  ⟨Or.inl rfl,
    (claim5_zero_size_rejected 0 3 true ⟨3, some [1, 1, 1]⟩ ⟨0, some []⟩
      ⟨0, 1, some []⟩ ⟨3, 1, some [1, 1, 1]⟩ 9 2 ⟨2, 0⟩ 2 true false
      (Or.inl rfl)).1,
    (claim5_zero_size_rejected 0 3 true ⟨3, some [1, 1, 1]⟩ ⟨0, some []⟩
      ⟨0, 1, some []⟩ ⟨3, 1, some [1, 1, 1]⟩ 9 2 ⟨2, 0⟩ 2 true false
      (Or.inl rfl)).2.1,
    (claim5_zero_size_rejected 0 3 true ⟨3, some [1, 1, 1]⟩ ⟨0, some []⟩
      ⟨0, 1, some []⟩ ⟨3, 1, some [1, 1, 1]⟩ 9 2 ⟨2, 0⟩ 2 true false
      (Or.inl rfl)).2.2.1,
    (claim5_zero_size_rejected 0 3 true ⟨3, some [1, 1, 1]⟩ ⟨0, some []⟩
      ⟨0, 1, some []⟩ ⟨3, 1, some [1, 1, 1]⟩ 9 2 ⟨2, 0⟩ 2 true false
      (Or.inl rfl)).2.2.2⟩

/-- Claim C6: for compatible A, x, y the matrix-vector kernel returns the
same result for every thread-count configuration (in particular 1 thread
against N > 1 threads, any row count including 0): each output row is
written by exactly one worker with the same inner summation order. -/
theorem claim6_mv_thread_equiv (M K : Nat) (Ad xd yd : List ℚ)
    (cfg1 cfg2 : KCfg) :
    mv_mt ⟨M, K, some Ad⟩ ⟨K, some xd⟩ ⟨M, some yd⟩ cfg1 true false =
      mv_mt ⟨M, K, some Ad⟩ ⟨K, some xd⟩ ⟨M, some yd⟩ cfg2 true false := by
  rw [mv_mt_ok, mv_mt_ok]

/-- Claim C7: for equal-length vectors the dot kernel combines the
per-worker partial sums after the join, in ascending worker index, and in
exact arithmetic the result equals the plain sequential sum for every
thread count; concretely x = [1,2,3], y = [4,5,6] gives exactly 32. -/
theorem claim7_dt_eq_seq (n : Nat) (xd yd : List ℚ) (out : ℚ) (ntI : Int) :
    dt_mt ⟨n, some xd⟩ ⟨n, some yd⟩ out ntI true false = (0, seqDot xd yd n) ∧
      dt_mt ⟨3, some [1, 2, 3]⟩ ⟨3, some [4, 5, 6]⟩ out ntI true false =
        (0, 32) := by
  constructor
  · exact dt_mt_ok n xd yd out ntI
  · rw [dt_mt_ok 3 [1, 2, 3] [4, 5, 6] out ntI, seqDot,
      show List.range 3 = [0, 1, 2] from rfl]
    norm_num [getD]

/-- Claim C8: axpy returns success and updates y in place to
a * x[i] + (prior y[i]) at every index, the workers covering every index
exactly once. -/
theorem claim8_axpy (n : Nat) (a : ℚ) (xd yd : List ℚ) (hy : yd.length = n)
    (ntI : Int) :
    ax_mt a ⟨n, some xd⟩ ⟨n, some yd⟩ ntI true false =
      (0, ⟨n, some ((List.range n).map
          (fun i => a * getD xd i + getD yd i))⟩) :=
  ax_mt_ok n a xd yd hy ntI

/-- Witness for C8: axpy(2, [1,2,3], [10,20,30]) with 2 threads yields
[12,24,36]. -/
theorem claim8_axpy_witness :
    ([10, 20, 30] : List ℚ).length = 3 ∧
      ax_mt 2 ⟨3, some [1, 2, 3]⟩ ⟨3, some [10, 20, 30]⟩ 2 true false =
        (0, ⟨3, some [12, 24, 36]⟩) := by
  refine ⟨rfl, ?_⟩
  rw [claim8_axpy 3 2 [1, 2, 3] [10, 20, 30] rfl 2,
    show List.range 3 = [0, 1, 2] from rfl]
  norm_num [getD]

/-- Counterexample for C9 as stated: m_alloc 0 5 returns an absent buffer
but keeps cols = 5, so the absent-buffer state does not force
rows = cols = 0. -/
theorem claim9_alloc_invariant_cex :
    ¬ ((∃ l, (m_alloc 0 5 true).data = some l ∧
          l.length = (m_alloc 0 5 true).rows * (m_alloc 0 5 true).cols) ∨
        ((m_alloc 0 5 true).data = none ∧ (m_alloc 0 5 true).rows = 0 ∧
          (m_alloc 0 5 true).cols = 0)) := by
  simp [m_alloc]

/-- Claim C9 (amended): every Mat returned by m_alloc and Vec returned by
v_alloc satisfies: the buffer is present with length exactly rows*cols
(resp. len), or the buffer is absent and then rows*cols = 0, that is at
least one dimension is 0 (resp. len = 0); in the absent case a matrix
keeps its requested dimensions, so rows = cols = 0 need not hold. -/
theorem claim9_alloc_invariant (r c n : Nat) (ok : Bool) :
    (∀ l, (m_alloc r c ok).data = some l →
        l.length = (m_alloc r c ok).rows * (m_alloc r c ok).cols) ∧
    ((m_alloc r c ok).data = none →
        (m_alloc r c ok).rows * (m_alloc r c ok).cols = 0) ∧
    (∀ l, (v_alloc n ok).data = some l → l.length = (v_alloc n ok).len) ∧
    ((v_alloc n ok).data = none → (v_alloc n ok).len = 0) := by
  unfold m_alloc v_alloc
  split_ifs <;> simp_all

/-- Witness for C9 (amended) at a 2x3 matrix and an empty vector. -/
theorem claim9_alloc_invariant_witness :
    (m_alloc 2 3 true).data = some (List.replicate 6 0) ∧
      (List.replicate 6 (0 : ℚ)).length =
        (m_alloc 2 3 true).rows * (m_alloc 2 3 true).cols ∧
      (v_alloc 0 true).data = none ∧ (v_alloc 0 true).len = 0 := by
  have h1 : (m_alloc 2 3 true).data = some (List.replicate 6 0) := by
    norm_num [m_alloc]
  have h2 : (v_alloc 0 true).data = none := by norm_num [v_alloc]
  exact ⟨h1, (claim9_alloc_invariant 2 3 0 true).1 _ h1, h2,
    (claim9_alloc_invariant 2 3 0 true).2.2.2 h2⟩

/-- Claim C10: successful allocation of a nonempty matrix or vector
returns a buffer of exactly r*c (resp. n) entries, all zero-initialized. -/
theorem claim10_alloc_zeroed (r c n : Nat) (hr : 1 ≤ r) (hc : 1 ≤ c)
    (hn : 1 ≤ n) :
    (∃ l, (m_alloc r c true).data = some l ∧ l.length = r * c ∧
        ∀ q ∈ l, q = 0) ∧
    (∃ l, (v_alloc n true).data = some l ∧ l.length = n ∧ ∀ q ∈ l, q = 0) := by
  constructor
  · refine ⟨List.replicate (r * c) 0, ?_, by simp, ?_⟩
    · rw [m_alloc, if_neg (by omega), if_pos rfl]
    · intro q hq
      exact List.eq_of_mem_replicate hq
  · refine ⟨List.replicate n 0, ?_, by simp, ?_⟩
    · rw [v_alloc, if_neg (by omega), if_pos rfl]
    · intro q hq
      exact List.eq_of_mem_replicate hq

/-- Witness for C10 at r = 2, c = 3, n = 4. -/
theorem claim10_alloc_zeroed_witness :
    1 ≤ 2 ∧ 1 ≤ 3 ∧ 1 ≤ 4 ∧
      ((∃ l, (m_alloc 2 3 true).data = some l ∧ l.length = 2 * 3 ∧
          ∀ q ∈ l, q = 0) ∧
        (∃ l, (v_alloc 4 true).data = some l ∧ l.length = 4 ∧
          ∀ q ∈ l, q = 0)) :=
  ⟨by decide, by decide, by decide,
    claim10_alloc_zeroed 2 3 4 (by decide) (by decide) (by decide)⟩
